import Mathlib

/-!
# Verification of the healthcare-capacity dashboard pipeline

Shallow embedding of `src/healthcapacity.py`: the join/derive pipeline
(lines 27-47), the summary scalars (lines 36-42) and the reactive chart
callback `update_graph` (lines 113-157).

Numeric columns are modelled with exact rationals; values produced by
floating-point division (which in pandas/numpy yields `inf`, `-inf` or
`NaN` instead of raising on a zero denominator) are modelled by the
extended-value type `EVal` below.
-/

set_option maxHeartbeats 1000000
set_option maxRecDepth 100000

namespace Health

/-- Extended numeric value: a finite rational, `+inf`, `-inf` or `NaN`.
Mirrors the IEEE-style values a pandas float column can hold. -/
inductive EVal where
  | fin (q : ℚ)
  | inf
  | ninf
  | nan
deriving DecidableEq, Repr

namespace EVal

/-- Addition of extended values (as numpy performs it): finite values add,
`inf + (-inf)` is `NaN`, and `NaN` absorbs everything. -/
def eadd : EVal → EVal → EVal
  | nan, _ => nan
  | _, nan => nan
  | fin a, fin b => fin (a + b)
  | fin _, inf => inf
  | inf, fin _ => inf
  | inf, inf => inf
  | fin _, ninf => ninf
  | ninf, fin _ => ninf
  | ninf, ninf => ninf
  | inf, ninf => nan
  | ninf, inf => nan

/-- Division of extended values (as numpy performs it): a nonzero finite
value divided by zero gives a signed infinity, `0/0` gives `NaN`. -/
def ediv : EVal → EVal → EVal
  | nan, _ => nan
  | _, nan => nan
  | fin a, fin b =>
      if b ≠ 0 then fin (a / b)
      else if 0 < a then inf
      else if a < 0 then ninf
      else nan
  | fin _, inf => fin 0
  | fin _, ninf => fin 0
  | inf, fin b => if 0 ≤ b then inf else ninf
  | ninf, fin b => if 0 ≤ b then ninf else inf
  | inf, inf => nan
  | inf, ninf => nan
  | ninf, inf => nan
  | ninf, ninf => nan

/-- Multiplication by the positive literal 100 (as numpy performs it). -/
def emul100 : EVal → EVal
  | fin a => fin (a * 100)
  | inf => inf
  | ninf => ninf
  | nan => nan

/-- Boolean comparison used by pandas reductions on non-`NaN` values:
`-inf` below every finite value, every finite value below `+inf`;
comparisons involving `NaN` are false, as in IEEE arithmetic. -/
def bleE : EVal → EVal → Bool
  | nan, _ => false
  | _, nan => false
  | _, inf => true
  | ninf, _ => true
  | fin a, fin b => a ≤ b
  | _, _ => false

end EVal

/-- Calendar date carried by the `date` column after `pd.to_datetime`. -/
structure Date where
  year : ℕ
  month : ℕ
  day : ℕ
deriving DecidableEq, Repr

/-- One row of `cases_state.csv` after date parsing (line 19/24). -/
structure CaseRecord where
  date : Date
  state : String
  cases_new : ℚ
deriving DecidableEq, Repr

/-- One row of `hospital.csv` after date parsing (line 18/23). -/
structure HospitalRecord where
  date : Date
  state : String
  admitted_total : ℚ
  beds : ℚ
  beds_covid : ℚ
deriving DecidableEq, Repr

/-- One row of the merged table `df` after lines 27-34: the joined
columns plus derived `year`, `month` and `healthcare_capacity`. -/
structure JoinedRecord where
  date : Date
  state : String
  cases_new : ℚ
  admitted_total : ℚ
  beds : ℚ
  beds_covid : ℚ
  year : ℕ
  month : ℕ
  healthcare_capacity : EVal
deriving DecidableEq, Repr

/-- Builds one joined row from a matching case row and hospital row,
including the derived columns of lines 30-34:
`year`/`month` from the date and
`healthcare_capacity = admitted_total / beds * 100`. -/
def mkJoined (c : CaseRecord) (h : HospitalRecord) : JoinedRecord :=
  { date := c.date
    state := c.state
    cases_new := c.cases_new
    admitted_total := h.admitted_total
    beds := h.beds
    beds_covid := h.beds_covid
    year := c.date.year
    month := c.date.month
    healthcare_capacity := EVal.emul100 (EVal.ediv (EVal.fin h.admitted_total) (EVal.fin h.beds)) }

/-- Embeds `pd.merge(cases_state_df, hospital_df, on=['date','state'])` (line 27):
inner join; each left row, in order, is paired with every right row whose
`(date, state)` key matches, in right-table order. -/
def mergeRows (cs : List CaseRecord) (hs : List HospitalRecord) :
    List (CaseRecord × HospitalRecord) :=
  cs.flatMap fun c =>
    (hs.filter fun h => decide (h.date = c.date ∧ h.state = c.state)).map fun h => (c, h)

/-- The merged-and-derived table `df` of lines 27-34. -/
def df (cs : List CaseRecord) (hs : List HospitalRecord) : List JoinedRecord :=
  (mergeRows cs hs).map fun p => mkJoined p.1 p.2

/-! ## Series reductions (pandas semantics: `NaN` is skipped) -/

/-- One step of the running maximum that skips `NaN`, with `NaN` as the
initial "nothing seen yet" accumulator. -/
def maxStep (acc x : EVal) : EVal :=
  if x = EVal.nan then acc
  else if acc = EVal.nan then x
  else if EVal.bleE acc x then x else acc

/-- Embeds `Series.max()` with pandas' default `skipna=True`: the maximum of the
non-`NaN` entries, `NaN` when every entry is `NaN` (or the series is empty). -/
def seriesMax (l : List EVal) : EVal := l.foldl maxStep EVal.nan

/-- Embeds `Series.idxmax()`: index of the first entry equal to the maximum,
skipping `NaN`; `none` models the `ValueError` pandas raises when all
entries are `NaN`. -/
def idxmax (l : List EVal) : Option ℕ :=
  if seriesMax l = EVal.nan then none
  else some (l.findIdx fun x => x = seriesMax l)

/-- Sum of a list of extended values, as `Series.sum` accumulates them. -/
def sumE (l : List EVal) : EVal := l.foldl EVal.eadd (EVal.fin 0)

/-- Embeds `Series.mean()` with pandas' default `skipna=True`: mean of the
non-`NaN` entries, `NaN` when none remain. -/
def seriesMean (l : List EVal) : EVal :=
  let vs := l.filter fun v => decide (v ≠ EVal.nan)
  if vs.length = 0 then EVal.nan
  else EVal.ediv (sumE vs) (EVal.fin (vs.length : ℚ))

/-- Embeds `fillna(0)` on one value: replaces `NaN` (and only `NaN`) by 0. -/
def fillna0 (v : EVal) : EVal :=
  if v = EVal.nan then EVal.fin 0 else v

/-! ## Summary scalars (lines 36-42) -/

/-- The `healthcare_capacity` column of the joined table. -/
def capacityCol (l : List JoinedRecord) : List EVal :=
  l.map fun j => j.healthcare_capacity

/-- Line 37: `df.loc[df['healthcare_capacity'].idxmax()]['state']`; `none`
models the exception pandas raises when the column is all-`NaN` or empty. -/
def max_capacity_state (l : List JoinedRecord) : Option String :=
  (idxmax (capacityCol l)).bind fun i => (l.get? i).map fun j => j.state

/-- Line 38: `df['healthcare_capacity'].max()`. -/
def max_capacity_value (l : List JoinedRecord) : EVal :=
  seriesMax (capacityCol l)

/-- Embeds the no-op `.max()` invoked on a numpy scalar (line 42) returns the scalar itself. -/
def npScalarMax (x : EVal) : EVal := x

/-- Lines 41-42: `df['beds_covid'].sum() / df['beds'].sum() * 100`, then a
no-op `.max()` on the resulting scalar. -/
def beds_utilized_by_covid (l : List JoinedRecord) : EVal :=
  npScalarMax (EVal.emul100 (EVal.ediv
    (EVal.fin ((l.map fun j => j.beds_covid).sum))
    (EVal.fin ((l.map fun j => j.beds).sum))))

/-! ## Monthly aggregation (lines 44-47) -/

/-- One row of `heatmap_data`: a `(year, month)` group key and the group's
mean `healthcare_capacity` after `fillna(0)`. -/
structure HeatRow where
  year : ℕ
  month : ℕ
  healthcare_capacity : EVal
deriving DecidableEq, Repr

/-- Lexicographic order on `(year, month)` group keys, the order in which
`groupby` (with its default `sort=True`) emits groups. -/
def pairLe (p q : ℕ × ℕ) : Bool :=
  p.1 < q.1 || (p.1 = q.1 && p.2 ≤ q.2)

/-- Insert a key into a sorted key list. -/
def insertPair (p : ℕ × ℕ) : List (ℕ × ℕ) → List (ℕ × ℕ)
  | [] => [p]
  | q :: qs => if pairLe p q then p :: q :: qs else q :: insertPair p qs

/-- Insertion sort of group keys by `pairLe`. -/
def sortPairs : List (ℕ × ℕ) → List (ℕ × ℕ)
  | [] => []
  | p :: ps => insertPair p (sortPairs ps)

/-- The distinct `(year, month)` keys of the joined table, in the sorted
order `groupby` uses. -/
def groupKeys (l : List JoinedRecord) : List (ℕ × ℕ) :=
  sortPairs ((l.map fun j => (j.year, j.month)).dedup)

/-- The `healthcare_capacity` entries of one `(year, month)` group. -/
def groupRatios (l : List JoinedRecord) (y m : ℕ) : List EVal :=
  capacityCol (l.filter fun j => decide (j.year = y ∧ j.month = m))

/-- Lines 45-47:
`df.groupby(['year','month'])['healthcare_capacity'].mean().reset_index()`
followed by `fillna(0)`: one row per distinct `(year, month)` key, holding
the group's skip-`NaN` mean with `NaN` replaced by 0. -/
def heatmap_data (l : List JoinedRecord) : List HeatRow :=
  (groupKeys l).map fun k =>
    { year := k.1, month := k.2,
      healthcare_capacity := fillna0 (seriesMean (groupRatios l k.1 k.2)) }

/-! ## Reactive chart callback `update_graph` (lines 113-157) -/

/-- The data content of the line chart (lines 116-121): `cases_new` over
`date` plus a secondary `healthcare_capacity` trace on the same dates. -/
structure LineSpec where
  dates : List Date
  cases_new : List ℚ
  capacity : List EVal
deriving DecidableEq, Repr

/-- The data content of the scatter chart (lines 124-129): the sampled
`(cases_new, healthcare_capacity)` pairs and the state named in the title. -/
structure ScatterSpec where
  xs : List ℚ
  ys : List EVal
  title_state : String
deriving DecidableEq, Repr

/-- The data content of the heatmap (lines 130-132): the pivoted
`(year, month, value)` grid rows. -/
structure HeatSpec where
  grid : List HeatRow
deriving DecidableEq, Repr

/-- The triple of figures the callback returns (line 157). -/
structure Charts where
  line_chart : LineSpec
  scatter_plot : ScatterSpec
  heatmap : HeatSpec
deriving DecidableEq, Repr

/-- Embeds `DataFrame.sample(n, random_state=1)` with the default
`replace=False` (line 124): raises `ValueError` when `n` exceeds the row
count, otherwise returns `n` pseudo-randomly chosen rows, deterministic
for the fixed seed. Which rows the seeded Mersenne-Twister permutation
picks is irrelevant to every claim, so the deterministic choice is
modelled as the first `n` rows in a fixed order; the row count and the
failure condition are exactly pandas'. -/
def pdSample (n : ℕ) (rows : List JoinedRecord) : Except String (List JoinedRecord) :=
  if n ≤ rows.length then Except.ok (rows.take n)
  else Except.error "Cannot take a larger sample than population when replace is False"

/-- Detects a duplicated key in a key list. -/
def hasDupKey : List (ℕ × ℕ) → Bool
  | [] => false
  | k :: ks => k ∈ ks || hasDupKey ks

/-- Embeds `heatmap_data.pivot(index='year', columns='month', values=...)`
(lines 130-131): raises `ValueError` if some `(year, month)` pair appears
twice, otherwise arranges the rows into a year x month grid (modelled by
the rows themselves, whose keys are then unique). -/
def pandasPivot (rows : List HeatRow) : Except String HeatSpec :=
  if hasDupKey (rows.map fun r => (r.year, r.month)) then
    Except.error "Index contains duplicate entries, cannot reshape"
  else Except.ok { grid := rows }

/-- The callback body (lines 113-157) as a function of the two
process-wide tables it reads and the selected state: filter to the state,
build the line chart, draw the scatter sample, fit the scatter chart,
pivot the heatmap, return the three figures. An `Except.error` models an
exception escaping the callback. -/
def update_graph (tbl : List JoinedRecord) (hm : List HeatRow)
    (selected_state : String) : Except String Charts := do
  let filtered_df := tbl.filter fun j => decide (j.state = selected_state)
  let line_chart : LineSpec :=
    { dates := filtered_df.map fun j => j.date
      cases_new := filtered_df.map fun j => j.cases_new
      capacity := filtered_df.map fun j => j.healthcare_capacity }
  let scatter_sample ← pdSample 100 filtered_df
  let scatter_plot : ScatterSpec :=
    { xs := scatter_sample.map fun j => j.cases_new
      ys := scatter_sample.map fun j => j.healthcare_capacity
      title_state := selected_state }
  let heatmap ← pandasPivot hm
  return { line_chart := line_chart, scatter_plot := scatter_plot, heatmap := heatmap }

/-- The process-wide state established at startup (lines 27-47): the
joined table, the aggregated table and the three summary scalars. -/
structure AppState where
  table : List JoinedRecord
  heat : List HeatRow
  maxState : Option String
  maxValue : EVal
  covidBeds : EVal
deriving DecidableEq, Repr

/-- The startup pipeline: builds the whole process-wide state from the
two loaded tables (lines 27-47). -/
def startup (cs : List CaseRecord) (hs : List HospitalRecord) : AppState :=
  let tbl := df cs hs
  { table := tbl
    heat := heatmap_data tbl
    maxState := max_capacity_state tbl
    maxValue := max_capacity_value tbl
    covidBeds := beds_utilized_by_covid tbl }

/-- The callback as a state transformer: the Python body only reads the
process-wide tables (it assigns no global), so the state passes through
unchanged alongside the returned figures. -/
def update_graph_callback (st : AppState) (selected_state : String) :
    AppState × Except String Charts :=
  (st, update_graph st.table st.heat selected_state)

/-! ## Concrete fixture data used by witnesses and counterexamples -/

/-- Fixture date in May 2021. -/
def dW1 : Date := ⟨2021, 5, 3⟩

/-- Fixture date in June 2021. -/
def dW2 : Date := ⟨2021, 6, 4⟩

/-- Fixture case row for Selangor. -/
def cW1 : CaseRecord := ⟨dW1, "Selangor", 7⟩

/-- Fixture hospital row for Selangor. -/
def hW1 : HospitalRecord := ⟨dW1, "Selangor", 30, 40, 8⟩

/-- Fixture case row for Penang. -/
def cW2 : CaseRecord := ⟨dW2, "Penang", 3⟩

/-- Fixture hospital row for Penang. -/
def hW2 : HospitalRecord := ⟨dW2, "Penang", 10, 20, 4⟩

/-- Fixture case row for Perlis on the zero-bed date. -/
def cZ : CaseRecord := ⟨dW1, "Perlis", 1⟩

/-- Fixture hospital row realising the literal row
`{beds: 0, admitted_total: 5}` from the spec. -/
def hZ : HospitalRecord := ⟨dW1, "Perlis", 5, 0, 0⟩

/-- Three fixture case rows for one state, giving a filtered set of 3 rows. -/
def cs3 : List CaseRecord :=
  [⟨⟨2021, 5, 1⟩, "Penang", 1⟩, ⟨⟨2021, 5, 2⟩, "Penang", 2⟩, ⟨⟨2021, 5, 3⟩, "Penang", 3⟩]

/-- Hospital rows matching `cs3`. -/
def hs3 : List HospitalRecord :=
  [⟨⟨2021, 5, 1⟩, "Penang", 4, 10, 2⟩, ⟨⟨2021, 5, 2⟩, "Penang", 5, 10, 2⟩,
   ⟨⟨2021, 5, 3⟩, "Penang", 6, 10, 2⟩]

/-- A joined record with a literal finite ratio of 75. -/
def jW1 : JoinedRecord := ⟨dW1, "Selangor", 7, 30, 40, 8, 2021, 5, EVal.fin 75⟩

/-- A joined record with a literal finite ratio of 50. -/
def jW2 : JoinedRecord := ⟨dW2, "Penang", 3, 10, 20, 4, 2021, 6, EVal.fin 50⟩

/-! ## Supporting lemmas -/

/-- Decomposition of membership in the joined table: every joined row
comes from one matching case/hospital pair. -/
lemma mem_df_iff {cs : List CaseRecord} {hs : List HospitalRecord} {j : JoinedRecord} :
    j ∈ df cs hs ↔
      ∃ c ∈ cs, ∃ h ∈ hs, (h.date = c.date ∧ h.state = c.state) ∧ j = mkJoined c h := by
  simp only [df, mergeRows, List.mem_map, List.mem_flatMap, List.mem_filter,
    decide_eq_true_eq]
  constructor
  · rintro ⟨p, ⟨c, hc, h, ⟨hh, hkey⟩, rfl⟩, rfl⟩
    exact ⟨c, hc, h, hh, hkey, rfl⟩
  · rintro ⟨c, hc, h, hh, hkey, rfl⟩
    exact ⟨(c, h), ⟨c, hc, h, ⟨hh, hkey⟩, rfl⟩, rfl⟩

/-- Number of case rows carrying a given `(date, state)` key. -/
def ccount (d : Date) (s : String) (cs : List CaseRecord) : ℕ :=
  cs.countP fun c => decide (c.date = d ∧ c.state = s)

/-- Number of hospital rows carrying a given `(date, state)` key. -/
def hcount (d : Date) (s : String) (hs : List HospitalRecord) : ℕ :=
  hs.countP fun h => decide (h.date = d ∧ h.state = s)

/-- Number of joined rows carrying a given `(date, state)` key. -/
def jcount (d : Date) (s : String) (l : List JoinedRecord) : ℕ :=
  l.countP fun j => decide (j.date = d ∧ j.state = s)

/-- Inner-join multiplicity: each `(date, state)` key appears in the
joined table as many times as the product of its multiplicities in the
two source tables. -/
lemma jcount_df (cs : List CaseRecord) (hs : List HospitalRecord) (d : Date) (s : String) :
    jcount d s (df cs hs) = ccount d s cs * hcount d s hs := by
  simp only [jcount, ccount, hcount]
  induction cs with
  | nil => simp [df, mergeRows]
  | cons c cs ih =>
      have hsplit : df (c :: cs) hs
          = ((hs.filter fun h => decide (h.date = c.date ∧ h.state = c.state)).map
              fun h => mkJoined c h) ++ df cs hs := by
        simp [df, mergeRows, List.flatMap_cons]
      rw [hsplit, List.countP_append, List.countP_map]
      by_cases hc : c.date = d ∧ c.state = s
      · obtain ⟨hd, hst⟩ := hc
        have hconst :
            ((fun j : JoinedRecord => decide (j.date = d ∧ j.state = s)) ∘
              fun h => mkJoined c h) = fun _ : HospitalRecord => true := by
          funext h
          simp [Function.comp, mkJoined, hd, hst]
        have hpred :
            (fun h : HospitalRecord => decide (h.date = c.date ∧ h.state = c.state))
              = fun h : HospitalRecord => decide (h.date = d ∧ h.state = s) := by
          funext h; rw [hd, hst]
        rw [hconst, List.countP_true, hpred, ← List.countP_eq_length_filter,
          List.countP_cons_of_pos _ _ (by simp [hd, hst]), ih]
        ring
      · have hconst :
            ((fun j : JoinedRecord => decide (j.date = d ∧ j.state = s)) ∘
              fun h => mkJoined c h) = fun _ : HospitalRecord => false := by
          funext h
          simp only [Function.comp, mkJoined]
          simpa using hc
        rw [hconst, List.countP_cons_of_neg _ _ (by simpa using hc), ih]
        simp [List.countP_false, Function.const]

/-- Once the running maximum has seen `+inf` it stays `+inf`. -/
lemma foldl_maxStep_inf (l : List EVal) : l.foldl maxStep EVal.inf = EVal.inf := by
  induction l with
  | nil => rfl
  | cons x xs ih =>
      have hx : maxStep EVal.inf x = EVal.inf := by
        cases x <;> simp [maxStep, EVal.bleE]
      simpa [List.foldl_cons, hx] using ih

/-- Folding the running maximum over a list containing `+inf` yields
`+inf`, whatever the accumulator. -/
lemma foldl_maxStep_of_mem_inf :
    ∀ (l : List EVal) (acc : EVal), EVal.inf ∈ l → l.foldl maxStep acc = EVal.inf := by
  intro l
  induction l with
  | nil => intro acc h; cases h
  | cons x xs ih =>
      intro acc h
      rcases List.mem_cons.mp h with rfl | hxs
      · have hx : maxStep acc EVal.inf = EVal.inf := by
          cases acc <;> simp [maxStep, EVal.bleE]
        simpa [List.foldl_cons, hx] using foldl_maxStep_inf xs
      · exact ih (maxStep acc x) hxs

/-- A series containing `+inf` has maximum `+inf` (pandas `max`). -/
lemma seriesMax_eq_inf_of_mem {l : List EVal} (h : EVal.inf ∈ l) :
    seriesMax l = EVal.inf :=
  foldl_maxStep_of_mem_inf l EVal.nan h

/-- Comparison `bleE` with `NaN` on the left is false. -/
@[simp] lemma bleE_nan_left (b : EVal) : EVal.bleE EVal.nan b = false := by
  cases b <;> rfl

/-- Comparison `bleE` with `NaN` on the right is false. -/
@[simp] lemma bleE_nan_right (a : EVal) : EVal.bleE a EVal.nan = false := by
  cases a <;> rfl

/-- Comparison `bleE` on two finite values is the rational comparison. -/
@[simp] lemma bleE_fin_fin (a b : ℚ) :
    EVal.bleE (EVal.fin a) (EVal.fin b) = decide (a ≤ b) := rfl

/-- A finite value is below `+inf`. -/
@[simp] lemma bleE_fin_inf (a : ℚ) : EVal.bleE (EVal.fin a) EVal.inf = true := rfl

/-- Value `+inf` is below itself. -/
@[simp] lemma bleE_inf_inf : EVal.bleE EVal.inf EVal.inf = true := rfl

/-- Value `-inf` is below `+inf`. -/
@[simp] lemma bleE_ninf_inf : EVal.bleE EVal.ninf EVal.inf = true := rfl

/-- Value `-inf` is below a finite value. -/
@[simp] lemma bleE_ninf_fin (b : ℚ) : EVal.bleE EVal.ninf (EVal.fin b) = true := rfl

/-- Value `-inf` is below itself. -/
@[simp] lemma bleE_ninf_ninf : EVal.bleE EVal.ninf EVal.ninf = true := rfl

/-- Value `+inf` is not below a finite value. -/
@[simp] lemma bleE_inf_fin (b : ℚ) : EVal.bleE EVal.inf (EVal.fin b) = false := rfl

/-- Value `+inf` is not below `-inf`. -/
@[simp] lemma bleE_inf_ninf : EVal.bleE EVal.inf EVal.ninf = false := rfl

/-- A finite value is not below `-inf`. -/
@[simp] lemma bleE_fin_ninf (a : ℚ) : EVal.bleE (EVal.fin a) EVal.ninf = false := rfl

/-- Comparison `bleE` is reflexive on non-`NaN` values. -/
lemma bleE_refl {a : EVal} (ha : a ≠ EVal.nan) : EVal.bleE a a = true := by
  cases a <;> simp_all

/-- Comparison `bleE` holds only between non-`NaN` values. -/
lemma ne_nan_of_bleE {a b : EVal} (h : EVal.bleE a b = true) :
    a ≠ EVal.nan ∧ b ≠ EVal.nan := by
  cases a <;> cases b <;> simp_all

/-- Comparison `bleE` is total on non-`NaN` values. -/
lemma bleE_total {a b : EVal} (ha : a ≠ EVal.nan) (hb : b ≠ EVal.nan) :
    EVal.bleE a b = true ∨ EVal.bleE b a = true := by
  cases a <;> cases b <;> simp_all
  exact le_total _ _

/-- Comparison `bleE` is transitive. -/
lemma bleE_trans {a b c : EVal} (hab : EVal.bleE a b = true)
    (hbc : EVal.bleE b c = true) : EVal.bleE a c = true := by
  cases a <;> cases b <;> cases c <;> simp_all
  exact le_trans hab hbc

/-- One step of the running maximum returns either the accumulator or the
new element. -/
lemma maxStep_eq_or (acc x : EVal) : maxStep acc x = acc ∨ maxStep acc x = x := by
  unfold maxStep
  by_cases h1 : x = EVal.nan
  · simp [h1]
  · by_cases h2 : acc = EVal.nan
    · simp [h1, h2]
    · by_cases h3 : EVal.bleE acc x <;> simp [h1, h2, h3]

/-- One step of the running maximum never turns a non-`NaN` element into
`NaN`. -/
lemma maxStep_ne_nan {acc x : EVal} (hx : x ≠ EVal.nan) :
    maxStep acc x ≠ EVal.nan := by
  unfold maxStep
  by_cases h2 : acc = EVal.nan
  · simp [hx, h2]
  · by_cases h3 : EVal.bleE acc x <;> simp [hx, h2, h3]

/-- The accumulator is below one step of the running maximum. -/
lemma bleE_maxStep {acc x : EVal} (hacc : acc ≠ EVal.nan) :
    EVal.bleE acc (maxStep acc x) = true := by
  unfold maxStep
  by_cases h1 : x = EVal.nan
  · simp [h1, bleE_refl hacc]
  · by_cases h3 : EVal.bleE acc x <;> simp [h1, hacc, h3, bleE_refl hacc]

/-- The element is below one step of the running maximum taken with it. -/
lemma bleE_maxStep_self {acc x : EVal} (hx : x ≠ EVal.nan) :
    EVal.bleE x (maxStep acc x) = true := by
  unfold maxStep
  by_cases h2 : acc = EVal.nan
  · simp [hx, h2, bleE_refl hx]
  · by_cases h3 : EVal.bleE acc x
    · simp [hx, h2, h3, bleE_refl hx]
    · rcases bleE_total hx h2 with h | h
      · simp [hx, h2, h3, h]
      · exact absurd h h3

/-- The accumulator stays below the whole fold of the running maximum. -/
lemma bleE_foldl_maxStep :
    ∀ (l : List EVal) (acc : EVal), acc ≠ EVal.nan →
      EVal.bleE acc (l.foldl maxStep acc) = true := by
  intro l
  induction l with
  | nil => intro acc hacc; simpa using bleE_refl hacc
  | cons x xs ih =>
      intro acc hacc
      rcases maxStep_eq_or acc x with h | h
      · simpa [List.foldl_cons, h] using ih acc hacc
      · have hstep : EVal.bleE acc (maxStep acc x) = true := bleE_maxStep hacc
        have hne : maxStep acc x ≠ EVal.nan := (ne_nan_of_bleE hstep).2
        exact bleE_trans hstep (by simpa [List.foldl_cons] using ih _ hne)

/-- Every non-`NaN` element of the series is below the fold of the
running maximum. -/
lemma bleE_mem_foldl_maxStep :
    ∀ (l : List EVal) (acc x : EVal), x ∈ l → x ≠ EVal.nan →
      EVal.bleE x (l.foldl maxStep acc) = true := by
  intro l
  induction l with
  | nil => intro acc x hx; cases hx
  | cons y ys ih =>
      intro acc x hx hxn
      rcases List.mem_cons.mp hx with rfl | hxs
      · have hstep : EVal.bleE x (maxStep acc x) = true := bleE_maxStep_self hxn
        have hne : maxStep acc x ≠ EVal.nan := maxStep_ne_nan hxn
        exact bleE_trans hstep (by simpa [List.foldl_cons] using bleE_foldl_maxStep ys _ hne)
      · exact ih (maxStep acc y) x hxs hxn

/-- The fold of the running maximum is the accumulator or an element. -/
lemma foldl_maxStep_eq_or_mem :
    ∀ (l : List EVal) (acc : EVal),
      l.foldl maxStep acc = acc ∨ l.foldl maxStep acc ∈ l := by
  intro l
  induction l with
  | nil => intro acc; simp
  | cons x xs ih =>
      intro acc
      rcases ih (maxStep acc x) with h | h
      · rcases maxStep_eq_or acc x with h' | h'
        · exact Or.inl (by rw [List.foldl_cons, h, h'])
        · refine Or.inr ?_
          rw [List.foldl_cons, h, h']
          exact List.mem_cons_self _ _
      · exact Or.inr (List.mem_cons_of_mem x (by simpa [List.foldl_cons] using h))

/-- A non-`NaN` series maximum is one of the series' entries. -/
lemma seriesMax_mem {l : List EVal} (h : seriesMax l ≠ EVal.nan) :
    seriesMax l ∈ l := by
  rcases foldl_maxStep_eq_or_mem l EVal.nan with h' | h'
  · exact absurd h' h
  · exact h'

/-- Every non-`NaN` entry is below the series maximum. -/
lemma bleE_seriesMax {l : List EVal} {x : EVal} (hx : x ∈ l) (hxn : x ≠ EVal.nan) :
    EVal.bleE x (seriesMax l) = true :=
  bleE_mem_foldl_maxStep l EVal.nan x hx hxn

/-- Inserting into the sorted key list is a permutation of consing. -/
lemma insertPair_perm (p : ℕ × ℕ) :
    ∀ l : List (ℕ × ℕ), List.Perm (insertPair p l) (p :: l)
  | [] => List.Perm.refl _
  | q :: qs => by
      unfold insertPair
      by_cases h : pairLe p q
      · simp [h]
      · simp only [h, Bool.false_eq_true, if_false]
        exact ((insertPair_perm p qs).cons q).trans (List.Perm.swap p q qs)

/-- Insertion sort of the key list is a permutation. -/
lemma sortPairs_perm : ∀ l : List (ℕ × ℕ), List.Perm (sortPairs l) l
  | [] => List.Perm.refl _
  | p :: ps => (insertPair_perm p (sortPairs ps)).trans ((sortPairs_perm ps).cons p)

/-- The group keys are distinct. -/
lemma groupKeys_nodup (l : List JoinedRecord) : (groupKeys l).Nodup :=
  ((sortPairs_perm _).nodup_iff).mpr (List.nodup_dedup _)

/-- A pair is a group key exactly when some joined record carries it. -/
lemma mem_groupKeys {l : List JoinedRecord} {y m : ℕ} :
    (y, m) ∈ groupKeys l ↔ ∃ j ∈ l, j.year = y ∧ j.month = m := by
  rw [groupKeys, (sortPairs_perm _).mem_iff, List.mem_dedup, List.mem_map]
  constructor
  · rintro ⟨j, hj, hjk⟩
    exact ⟨j, hj, congrArg Prod.fst hjk, congrArg Prod.snd hjk⟩
  · rintro ⟨j, hj, hy, hm⟩
    exact ⟨j, hj, by rw [hy, hm]⟩

/-- On a duplicate-free key list, the number of keys with given
components is 1 or 0 according to membership. -/
lemma countP_key_of_nodup (y m : ℕ) :
    ∀ ks : List (ℕ × ℕ), ks.Nodup →
      (ks.countP fun k => decide (k.1 = y ∧ k.2 = m))
        = if (y, m) ∈ ks then 1 else 0 := by
  intro ks
  induction ks with
  | nil => simp
  | cons k ks ih =>
      intro hnd
      obtain ⟨hk, hnd'⟩ := List.nodup_cons.mp hnd
      rw [List.countP_cons, ih hnd']
      by_cases hkey : k = (y, m)
      · have hmem : (y, m) ∉ ks := hkey ▸ hk
        simp [hkey, hmem]
      · have hnp : ¬(k.1 = y ∧ k.2 = m) := by
          intro ⟨h1, h2⟩
          exact hkey (Prod.ext h1 h2)
        have hiff : ((y, m) = k ∨ (y, m) ∈ ks) ↔ (y, m) ∈ ks := by
          constructor
          · rintro (h | h)
            · exact absurd h.symm hkey
            · exact h
          · exact Or.inr
        simp [hnp, List.mem_cons, hiff]

/-- Every monthly row's value is the filled mean of its group. -/
lemma heatmap_value {l : List JoinedRecord} {r : HeatRow} (hr : r ∈ heatmap_data l) :
    r.healthcare_capacity = fillna0 (seriesMean (groupRatios l r.year r.month)) := by
  obtain ⟨k, _, rfl⟩ := List.mem_map.mp hr
  rfl

/-- Summing a list of finite values is finite summation. -/
lemma foldl_eadd_map_fin (qs : List ℚ) :
    ∀ a : ℚ, (qs.map EVal.fin).foldl EVal.eadd (EVal.fin a) = EVal.fin (a + qs.sum) := by
  induction qs with
  | nil => intro a; simp
  | cons q qs ih =>
      intro a
      simp only [List.map_cons, List.foldl_cons, EVal.eadd, List.sum_cons]
      rw [ih (a + q)]
      ring_nf

/-- The skip-`NaN` mean of a nonempty all-finite series is the exact
arithmetic mean. -/
lemma seriesMean_map_fin {qs : List ℚ} (h : qs ≠ []) :
    seriesMean (qs.map EVal.fin) = EVal.fin (qs.sum / qs.length) := by
  have hfil : (qs.map EVal.fin).filter (fun v => decide (v ≠ EVal.nan))
      = qs.map EVal.fin := by
    apply List.filter_eq_self.mpr
    intro v hv
    obtain ⟨q, _, rfl⟩ := List.mem_map.mp hv
    simp
  have hlen : (qs.map EVal.fin).length = qs.length := List.length_map _ _
  have hne : qs.length ≠ 0 := fun h0 => h (List.length_eq_zero.mp h0)
  have hcast : ((qs.length : ℚ)) ≠ 0 := Nat.cast_ne_zero.mpr hne
  unfold seriesMean
  simp only [hfil, List.length_map, hne, if_false, ite_false]
  unfold sumE
  rw [foldl_eadd_map_fin qs 0]
  simp [EVal.ediv, hcast]

/-- The filled mean of an all-`NaN` group is exactly 0. -/
lemma fillna0_seriesMean_all_nan {vs : List EVal} (h : ∀ v ∈ vs, v = EVal.nan) :
    fillna0 (seriesMean vs) = EVal.fin 0 := by
  have hfil : vs.filter (fun v => decide (v ≠ EVal.nan)) = [] := by
    apply List.filter_eq_nil_iff.mpr
    intro v hv
    simp [h v hv]
  unfold seriesMean
  rw [hfil]
  simp [fillna0]

/-- Binding a failed `Except` computation short-circuits. -/
@[simp] lemma bind_error_eval {α β : Type} (e : String) (f : α → Except String β) :
    (Bind.bind (Except.error e : Except String α) f : Except String β) = Except.error e := rfl

/-- Binding a successful `Except` computation applies the continuation. -/
@[simp] lemma bind_ok_eval {α β : Type} (a : α) (f : α → Except String β) :
    Bind.bind (Except.ok a : Except String α) f = f a := rfl

/-- Mapping over a failed `Except` computation short-circuits. -/
@[simp] lemma map_error_eval {α β : Type} (e : String) (f : α → β) :
    (f <$> (Except.error e : Except String α) : Except String β) = Except.error e := rfl

/-- Mapping over a successful `Except` computation applies the function. -/
@[simp] lemma map_ok_eval {α β : Type} (a : α) (f : α → β) :
    (f <$> (Except.ok a : Except String α) : Except String β) = Except.ok (f a) := rfl

/-- Lifting with `pure` into `Except` gives `ok`. -/
@[simp] lemma pure_eval {α : Type} (a : α) : (pure a : Except String α) = Except.ok a := rfl

/-- The only error `pdSample` can produce is the too-large-sample
`ValueError` message. -/
lemma pdSample_error_msg {n : ℕ} {rows : List JoinedRecord} {e : String}
    (h : pdSample n rows = Except.error e) :
    e = "Cannot take a larger sample than population when replace is False" := by
  unfold pdSample at h
  split at h
  · exact absurd h (by simp)
  · simpa using h.symm

/-- A duplicate-free key list has no duplicate key. -/
lemma hasDupKey_eq_false_of_nodup :
    ∀ {ks : List (ℕ × ℕ)}, ks.Nodup → hasDupKey ks = false := by
  intro ks
  induction ks with
  | nil => intro _; rfl
  | cons k ks ih =>
      intro hnd
      obtain ⟨hk, hnd'⟩ := List.nodup_cons.mp hnd
      unfold hasDupKey
      rw [ih hnd']
      simp [hk]

/-! ## Claim theorems -/

/-- Claim C1 (counterexample): for the literal row
`{beds: 0, admitted_total: 5}` the capacity ratio evaluates to `+inf`,
which is neither zero nor excluded; it propagates into the summary
maximum and into the monthly-average table, whose `fillna(0)` only
replaces `NaN`. This refutes the claim that the value is normalized and
never reaches the aggregates. -/
theorem C1_counterexample :
    ((df [cZ] [hZ]).map fun j => j.healthcare_capacity) = [EVal.inf]
    ∧ max_capacity_value (df [cZ] [hZ]) = EVal.inf
    ∧ ((heatmap_data (df [cZ] [hZ])).map fun r => r.healthcare_capacity) = [EVal.inf]
    ∧ EVal.inf ≠ EVal.fin 0 := by
  refine ⟨by decide, by decide, by decide, by decide⟩

/-- Claim C1 (amended): computing the capacity ratio for a record with
`beds = 0` never raises (the pipeline is total); for positive
`admitted_total` it yields `+inf`, and this undefined value is not
normalized: it propagates into the summary maximum, which becomes
`+inf`. -/
theorem C1_zero_beds_not_normalized (cs : List CaseRecord) (hs : List HospitalRecord)
    (j : JoinedRecord) (hj : j ∈ df cs hs) (hb : j.beds = 0)
    (ha : 0 < j.admitted_total) :
    j.healthcare_capacity = EVal.inf
    ∧ max_capacity_value (df cs hs) = EVal.inf := by
  have hcap : j.healthcare_capacity = EVal.inf := by
    rcases mem_df_iff.mp hj with ⟨c, _, h, _, _, rfl⟩
    simp only [mkJoined] at hb ha ⊢
    simp [EVal.ediv, EVal.emul100, hb, ha]
  refine ⟨hcap, seriesMax_eq_inf_of_mem ?_⟩
  exact hcap ▸ List.mem_map_of_mem (fun r => r.healthcare_capacity) hj

/-- Witness for the amended C1 at the literal row
`{beds: 0, admitted_total: 5}`. -/
theorem C1_zero_beds_not_normalized_witness :
    (mkJoined cZ hZ).healthcare_capacity = EVal.inf
    ∧ max_capacity_value (df [cZ] [hZ]) = EVal.inf := by
  exact C1_zero_beds_not_normalized [cZ] [hZ] (mkJoined cZ hZ)
    (mem_df_iff.mpr ⟨cZ, by simp, hZ, by simp, ⟨rfl, rfl⟩, rfl⟩)
    (by decide) (by decide)

/-- Claim C3: assuming each source table has at most one row per
`(date, state)` key, a key present in both sources yields exactly one
joined record (which carries both sources' fields, being `mkJoined` of
the two matching rows), and a key present in at most one source yields
none — inner-join semantics. -/
theorem C3_inner_join (cs : List CaseRecord) (hs : List HospitalRecord)
    (d : Date) (s : String)
    (hc1 : ccount d s cs ≤ 1) (hh1 : hcount d s hs ≤ 1) :
    (jcount d s (df cs hs)
        = if 0 < ccount d s cs ∧ 0 < hcount d s hs then 1 else 0)
    ∧ ∀ c ∈ cs, ∀ h ∈ hs, c.date = d → c.state = s → h.date = d → h.state = s →
        mkJoined c h ∈ df cs hs := by
  constructor
  · rw [jcount_df]
    rcases Nat.le_one_iff_eq_zero_or_eq_one.mp hc1 with h | h <;>
      rcases Nat.le_one_iff_eq_zero_or_eq_one.mp hh1 with g | g <;>
        simp [h, g]
  · intro c hc h hh hcd hcs hhd hhs
    exact mem_df_iff.mpr ⟨c, hc, h, hh, ⟨hhd.trans hcd.symm, hhs.trans hcs.symm⟩, rfl⟩

/-- Witness for C3 at the two-state fixture: the key `(dW2, "Penang")`
is present once in each source and produces exactly one joined record. -/
theorem C3_inner_join_witness :
    jcount dW2 "Penang" (df [cW1, cW2] [hW1, hW2]) = 1
    ∧ mkJoined cW2 hW2 ∈ df [cW1, cW2] [hW1, hW2] := by
  have H := C3_inner_join [cW1, cW2] [hW1, hW2] dW2 "Penang" (by decide) (by decide)
  refine ⟨?_, H.2 cW2 (by simp) hW2 (by simp) rfl rfl rfl rfl⟩
  rw [H.1]; decide

/-- Claim C4: for every joined record with a nonzero `beds` value, the
derived capacity ratio equals `admitted_total / beds * 100` (exact
arithmetic over the record's own two fields). -/
theorem C4_capacity_ratio (cs : List CaseRecord) (hs : List HospitalRecord)
    (j : JoinedRecord) (hj : j ∈ df cs hs) (hb : j.beds ≠ 0) :
    j.healthcare_capacity = EVal.fin (j.admitted_total / j.beds * 100) := by
  rcases mem_df_iff.mp hj with ⟨c, _, h, _, _, rfl⟩
  simp only [mkJoined] at hb ⊢
  simp [EVal.ediv, EVal.emul100, hb]

/-- Witness for C4 at the Penang fixture row: ratio `10 / 20 * 100 = 50`. -/
theorem C4_capacity_ratio_witness :
    (mkJoined cW2 hW2).healthcare_capacity = EVal.fin 50 := by
  have h := C4_capacity_ratio [cW1, cW2] [hW1, hW2] (mkJoined cW2 hW2)
    (mem_df_iff.mpr ⟨cW2, by simp, hW2, by simp, ⟨rfl, rfl⟩, rfl⟩) (by decide)
  rw [h]; norm_num [mkJoined, cW2, hW2]

/-- Claim C5: the two max-capacity summary scalars come from a full scan of
the joined table: when `idxmax` returns an index (some ratio is not
`NaN`), the reported state is the state of the record at that index, the
reported value is that record's ratio, that ratio is an upper bound of
every non-`NaN` ratio in the table, and every earlier record's ratio
differs from the maximum — the first-encountered maximum in source order
is chosen, deterministically. -/
theorem C5_max_capacity_scan (l : List JoinedRecord) (i : ℕ)
    (hi : idxmax (capacityCol l) = some i) :
    ∃ hlt : i < l.length,
      max_capacity_state l = some ((l.get ⟨i, hlt⟩).state)
      ∧ max_capacity_value l = (l.get ⟨i, hlt⟩).healthcare_capacity
      ∧ (∀ j ∈ l, j.healthcare_capacity ≠ EVal.nan →
          EVal.bleE j.healthcare_capacity (max_capacity_value l) = true)
      ∧ ∀ k, ∀ hk : k < l.length, k < i →
          (l.get ⟨k, hk⟩).healthcare_capacity ≠ max_capacity_value l := by
  by_cases hnan : seriesMax (capacityCol l) = EVal.nan
  · simp [idxmax, hnan] at hi
  · have hi' : (capacityCol l).findIdx (fun x => x = seriesMax (capacityCol l)) = i := by
      simpa [idxmax, hnan] using hi
    subst hi'
    have hmem : seriesMax (capacityCol l) ∈ capacityCol l := seriesMax_mem hnan
    have hex : ∃ x ∈ capacityCol l,
        (fun x => decide (x = seriesMax (capacityCol l))) x = true :=
      ⟨seriesMax (capacityCol l), hmem, by simp⟩
    have hflt : (capacityCol l).findIdx
        (fun x => x = seriesMax (capacityCol l)) < (capacityCol l).length :=
      List.findIdx_lt_length_of_exists hex
    have hlen : (capacityCol l).length = l.length := by simp [capacityCol]
    have hlt : (capacityCol l).findIdx
        (fun x => x = seriesMax (capacityCol l)) < l.length := by
      rw [← hlen]; exact hflt
    refine ⟨hlt, ?_, ?_, ?_, ?_⟩
    · unfold max_capacity_state
      rw [hi]
      simp only [Option.bind_eq_bind, Option.some_bind, List.get?_eq_getElem?,
        Option.map_eq_some']
      exact ⟨_, List.getElem?_eq_getElem hlt, rfl⟩
    · have hp := @List.findIdx_getElem _ (fun x => x = seriesMax (capacityCol l))
        (capacityCol l) hflt
      have hval : (capacityCol l)[(capacityCol l).findIdx
          (fun x => x = seriesMax (capacityCol l))] = seriesMax (capacityCol l) := by
        simpa using hp
      unfold max_capacity_value
      refine hval.symm.trans ?_
      simp [capacityCol, List.get_eq_getElem]
    · intro j hj hjn
      exact bleE_seriesMax (List.mem_map_of_mem (fun r => r.healthcare_capacity) hj) hjn
    · intro k hk hki hcontra
      have hfalse := @List.not_of_lt_findIdx _
        (fun x => x = seriesMax (capacityCol l)) (capacityCol l) k hki
      have hck : (capacityCol l)[k] = (l.get ⟨k, hk⟩).healthcare_capacity := by
        simp [capacityCol, List.get_eq_getElem]
      unfold max_capacity_value at hcontra
      rw [hck, hcontra] at hfalse
      simp at hfalse

/-- Witness for C5 on a two-record table with finite ratios 75 and 50:
the scan reports the first record's state and value. -/
theorem C5_max_capacity_scan_witness :
    max_capacity_state [jW1, jW2] = some "Selangor"
    ∧ max_capacity_value [jW1, jW2] = EVal.fin 75 := by
  obtain ⟨hlt, h1, h2, -, -⟩ := C5_max_capacity_scan [jW1, jW2] 0 (by decide)
  exact ⟨h1, h2⟩

/-- Claim C7: the COVID-bed summary scalar equals
`sum(beds_covid) / sum(beds) * 100` over the full joined record set, as
computed once by the startup pipeline (the trailing `.max()` on the numpy
scalar is the identity). -/
theorem C7_covid_bed_fraction (cs : List CaseRecord) (hs : List HospitalRecord)
    (hb : ((df cs hs).map fun j => j.beds).sum ≠ 0) :
    (startup cs hs).covidBeds =
      EVal.fin (((df cs hs).map fun j => j.beds_covid).sum /
        ((df cs hs).map fun j => j.beds).sum * 100) := by
  simp [startup, beds_utilized_by_covid, npScalarMax, EVal.ediv, EVal.emul100, hb]

/-- Witness for C7 at the two-state fixture:
`(8 + 4) / (40 + 20) * 100 = 20`. -/
theorem C7_covid_bed_fraction_witness :
    (startup [cW1, cW2] [hW1, hW2]).covidBeds = EVal.fin 20 := by
  have h := C7_covid_bed_fraction [cW1, cW2] [hW1, hW2]
    (by norm_num [df, mergeRows, mkJoined, cW1, cW2, hW1, hW2, dW1, dW2])
  rw [h]; norm_num [df, mergeRows, mkJoined, cW1, cW2, hW1, hW2, dW1, dW2]

/-- Claim C9: invoking the chart-update callback leaves every piece of
process-wide state (joined table, monthly-average table, all three summary
scalars) unchanged; its only effect is the returned chart triple. -/
theorem C9_callback_frame (st : AppState) (selected_state : String) :
    (update_graph_callback st selected_state).1 = st
    ∧ (update_graph_callback st selected_state).1.table = st.table
    ∧ (update_graph_callback st selected_state).1.heat = st.heat
    ∧ (update_graph_callback st selected_state).1.maxState = st.maxState
    ∧ (update_graph_callback st selected_state).1.maxValue = st.maxValue
    ∧ (update_graph_callback st selected_state).1.covidBeds = st.covidBeds
    ∧ (update_graph_callback st selected_state).2 =
        update_graph st.table st.heat selected_state :=
  ⟨rfl, rfl, rfl, rfl, rfl, rfl, rfl⟩

/-- Claim C6: the monthly-average table contains exactly one row per
distinct `(year, month)` pair occurring in the joined records; on an
all-finite nonempty group the row's value is the exact arithmetic mean of
the group's ratios, and on an all-`NaN` group (where the mean is
undefined) the value is exactly 0. -/
theorem C6_monthly_average (l : List JoinedRecord) (y m : ℕ) :
    ((heatmap_data l).countP fun r => decide (r.year = y ∧ r.month = m))
        = (if ∃ j ∈ l, j.year = y ∧ j.month = m then 1 else 0)
    ∧ ∀ r ∈ heatmap_data l, r.year = y → r.month = m →
        (∀ qs : List ℚ, groupRatios l y m = qs.map EVal.fin → qs ≠ [] →
            r.healthcare_capacity = EVal.fin (qs.sum / qs.length))
        ∧ ((∀ v ∈ groupRatios l y m, v = EVal.nan) →
            r.healthcare_capacity = EVal.fin 0) := by
  constructor
  · unfold heatmap_data
    rw [List.countP_map]
    have hcomp :
        ((fun r : HeatRow => decide (r.year = y ∧ r.month = m)) ∘
          fun k : ℕ × ℕ =>
            ({ year := k.1, month := k.2,
               healthcare_capacity :=
                 fillna0 (seriesMean (groupRatios l k.1 k.2)) } : HeatRow))
          = fun k : ℕ × ℕ => decide (k.1 = y ∧ k.2 = m) := by
      funext k; rfl
    rw [hcomp, countP_key_of_nodup y m _ (groupKeys_nodup l)]
    by_cases hex : ∃ j ∈ l, j.year = y ∧ j.month = m
    · rw [if_pos (mem_groupKeys.mpr hex), if_pos hex]
    · rw [if_neg fun hmem => hex (mem_groupKeys.mp hmem), if_neg hex]
  · intro r hr hy hm
    have hv := heatmap_value hr
    rw [hy, hm] at hv
    constructor
    · intro qs hqs hqe
      rw [hv, hqs, seriesMean_map_fin hqe]
      simp [fillna0]
    · intro hall
      rw [hv]
      exact fillna0_seriesMean_all_nan hall

/-- Witness for C6 on a two-record table with one record in May 2021:
one row for `(2021, 5)` whose value is the mean of the single ratio 75. -/
theorem C6_monthly_average_witness :
    ((heatmap_data [jW1, jW2]).countP fun r => decide (r.year = 2021 ∧ r.month = 5)) = 1
    ∧ ({ year := 2021, month := 5,
         healthcare_capacity :=
           fillna0 (seriesMean (groupRatios [jW1, jW2] 2021 5)) } : HeatRow).healthcare_capacity
        = EVal.fin 75 := by
  have H := C6_monthly_average [jW1, jW2] 2021 5
  have hmemk : ((2021, 5) : ℕ × ℕ) ∈ groupKeys [jW1, jW2] := by decide
  have hmem :
      ({ year := 2021, month := 5,
         healthcare_capacity :=
           fillna0 (seriesMean (groupRatios [jW1, jW2] 2021 5)) } : HeatRow)
        ∈ heatmap_data [jW1, jW2] :=
    List.mem_map_of_mem _ hmemk
  constructor
  · rw [H.1]
    decide
  · have := (H.2 _ hmem rfl rfl).1 [75] (by decide) (by decide)
    rw [this]
    norm_num

/-- Claim C10: the group-by produces at most one monthly row per
`(year, month)` pair, so the pivot inside the heatmap rendering succeeds
for every joined table, and the callback can never fail with the
duplicate-entry `ValueError`, whatever state is selected. -/
theorem C10_pivot_never_duplicate (cs : List CaseRecord) (hs : List HospitalRecord)
    (s : String) :
    pandasPivot (heatmap_data (df cs hs))
        = Except.ok { grid := heatmap_data (df cs hs) }
    ∧ update_graph (df cs hs) (heatmap_data (df cs hs)) s ≠
        Except.error "Index contains duplicate entries, cannot reshape" := by
  have hkeys : (heatmap_data (df cs hs)).map (fun r => (r.year, r.month))
      = groupKeys (df cs hs) := by
    unfold heatmap_data
    rw [List.map_map]
    have : ((fun r : HeatRow => (r.year, r.month)) ∘
        fun k : ℕ × ℕ =>
          ({ year := k.1, month := k.2,
             healthcare_capacity :=
               fillna0 (seriesMean (groupRatios (df cs hs) k.1 k.2)) } : HeatRow))
        = id := by
      funext k; rfl
    rw [this, List.map_id]
  have hdup : hasDupKey ((heatmap_data (df cs hs)).map fun r => (r.year, r.month))
      = false := by
    rw [hkeys]
    exact hasDupKey_eq_false_of_nodup (groupKeys_nodup (df cs hs))
  have hpiv : pandasPivot (heatmap_data (df cs hs))
      = Except.ok { grid := heatmap_data (df cs hs) } := by
    unfold pandasPivot
    rw [hdup]
    simp
  refine ⟨hpiv, ?_⟩
  unfold update_graph
  cases hres : pdSample 100 ((df cs hs).filter fun j => decide (j.state = s)) with
  | error e =>
      have he := pdSample_error_msg hres
      subst he
      simp [hres]
  | ok sample =>
      simp [hres, hpiv]

/-- The heatmap component of a callback result, `none` when the callback
raised. -/
def heatPartOf : Except String Charts → Option HeatSpec
  | Except.ok c => some c.heatmap
  | Except.error _ => none

/-- A hundred rows of one state, used to exercise a successful scatter sample. -/
def rowsFor (s : String) : List JoinedRecord :=
  (List.range 100).map fun i => ⟨⟨2021, 5, i⟩, s, 0, 0, 1, 0, 2021, 5, EVal.fin 0⟩

/-- A 200-row table holding 100 rows each for two states. -/
def bigTbl : List JoinedRecord := rowsFor "Selangor" ++ rowsFor "Penang"

/-- Claim C8: the heatmap figure is invariant under the selected state:
whenever the callback runs to completion for two selections (their
filtered sets are large enough for the scatter sample), the heatmap
components of the two results are identical — the heatmap depends only on
the precomputed monthly-average table. -/
theorem C8_heatmap_selection_invariant (tbl : List JoinedRecord) (hm : List HeatRow)
    (s1 s2 : String)
    (h1 : 100 ≤ (tbl.filter fun j => decide (j.state = s1)).length)
    (h2 : 100 ≤ (tbl.filter fun j => decide (j.state = s2)).length) :
    heatPartOf (update_graph tbl hm s1) = heatPartOf (update_graph tbl hm s2) := by
  have hs1 : pdSample 100 (tbl.filter fun j => decide (j.state = s1))
      = Except.ok ((tbl.filter fun j => decide (j.state = s1)).take 100) := by
    unfold pdSample
    rw [if_pos h1]
  have hs2 : pdSample 100 (tbl.filter fun j => decide (j.state = s2))
      = Except.ok ((tbl.filter fun j => decide (j.state = s2)).take 100) := by
    unfold pdSample
    rw [if_pos h2]
  unfold update_graph
  cases hpiv : pandasPivot hm with
  | error e => simp [hs1, hs2, hpiv, heatPartOf]
  | ok g => simp [hs1, hs2, hpiv, heatPartOf]

/-- Witness for C8: on the 200-row fixture table both selections have 100
rows, and the two callback results carry the same heatmap. -/
theorem C8_heatmap_selection_invariant_witness :
    heatPartOf (update_graph bigTbl [] "Selangor")
      = heatPartOf (update_graph bigTbl [] "Penang") :=
  C8_heatmap_selection_invariant bigTbl [] "Selangor" "Penang" (by decide) (by decide)

/-- Claim C2 (failing input): with a filtered set of exactly 3 rows, the
scatter sampling step `filtered_df.sample(n=100, random_state=1)` raises
`ValueError` instead of degrading to the 3 available rows, so the
callback fails. -/
theorem C2_sample_raises_on_small_state :
    ((df cs3 hs3).filter fun j => decide (j.state = "Penang")).length = 3
    ∧ update_graph (df cs3 hs3) (heatmap_data (df cs3 hs3)) "Penang" =
        Except.error "Cannot take a larger sample than population when replace is False" := by
  constructor
  · decide
  · rfl

end Health
